import Mathlib

/-!
Verification development for the step-verification and constraint-driven retry
orchestrator in `step_verify.py`.

Conventions of the embedding:
* Strings are Lean `String`s (lists of characters); the Python regex used by
  `rationale_to_steps` is embedded character by character (ASCII reading of
  the character classes, which is what the inputs exercise).
* Numeric scores are exact rationals; the Python floats `0.7` and `0.2`
  become the rationals `7/10` and `1/5`.
* External collaborators (the generation backend, the classifier model and
  tokenizer pipeline, the judge backend) are function parameters.
* Python equality between values of different runtime types is modelled by
  `PyVal.pyEq`, which is `false` across constructors, matching CPython
  semantics for the types that occur here (str-enums, strings, tuples,
  numbers).
-/

/-- The closed set of step outcomes (`StepAnnotation` in the source); each
member of the Python `str`-enum is identified with its `value` string by
`StepAnnotation.value`. -/
inductive StepAnnotation where
  | ESSENTIAL_AND_VALID
  | UNNECESSARY
  | LOGICALLY_FALSE
  | NOT_BACKED_BY_PRIOR_FACTS
  | BAD_DEDUCTIVE_REASONING
  | DOES_NOT_SEEM_RIGHT
deriving DecidableEq, Repr

def StepAnnotation.value : StepAnnotation → String
  | .ESSENTIAL_AND_VALID => "essential_valid"
  | .UNNECESSARY => "unnecessary"
  | .LOGICALLY_FALSE => "logically_false"
  | .NOT_BACKED_BY_PRIOR_FACTS => "not_backed_by_prior_facts"
  | .BAD_DEDUCTIVE_REASONING => "bad_deductive_reasoning"
  | .DOES_NOT_SEEM_RIGHT => "does_not_seem_right"

/-- A fragment of the Python value universe, just large enough to express the
comparisons performed by the source: strings (and str-enum members, which
compare by their value string), numbers, and pairs. -/
inductive PyVal where
  | str (s : String)
  | num (q : ℚ)
  | tup (a b : PyVal)
deriving DecidableEq

/-- CPython `==` on the values above: structural within one type, `False`
across types (`tuple.__eq__` and `str.__eq__` both return `NotImplemented`
on a foreign type, so `==` falls back to identity, hence `False` here). -/
def PyVal.pyEq : PyVal → PyVal → Bool
  | .str a, .str b => a == b
  | .num a, .num b => a == b
  | .tup a b, .tup c d => PyVal.pyEq a c && PyVal.pyEq b d
  | _, _ => false

def apostrophe : String := String.singleton (Char.ofNat 39)

/- ---------------------------------------------------------------------
   Segmenter: `rationale_to_steps` (source lines 134-140).
   The regex is  (?<!\w\.\w.)(?<![A-Z][a-z]\.)(?<=\.|\?)\s
   and `re.split` removes the single matched whitespace character.
   --------------------------------------------------------------------- -/

/-- Python `\w` on the ASCII inputs the program handles. -/
def isWordChar (c : Char) : Bool := c.isAlpha || c.isDigit || c == '_'

/-- Python `\s`: space, tab, newline, carriage return, vertical tab, form feed. -/
def isPySpace (c : Char) : Bool :=
  c == ' ' || c == '\t' || c == '\n' || c == '\r' || c == '\x0b' || c == '\x0c'

/-- Whether the split regex matches at the position whose (reversed) preceding
text is `prev` and whose current character is `c`.  `prev.head` is the
character immediately before `c` in the subject string.  The three
lookbehinds of the pattern are translated arm by arm:
`(?<=\.|\?)` is the positive test on `p1`; `(?<!\w\.\w.)` inspects the four
preceding characters (`p4 p3 p2 p1` in source order, `.` matching anything
but a newline); `(?<![A-Z][a-z]\.)` inspects the three preceding characters.
A lookbehind that would run past the start of the string cannot match, so the
negative tests succeed there. -/
def splitHere (prev : List Char) (c : Char) : Bool :=
  isPySpace c &&
    (match prev with
     | [] => false
     | p1 :: rest1 =>
       (p1 == '.' || p1 == '?') &&
       !(match rest1 with
         | p2 :: p3 :: p4 :: _ => isWordChar p4 && p3 == '.' && isWordChar p2 && p1 != '\n'
         | _ => false) &&
       !(match rest1 with
         | p2 :: p3 :: _ => p3.isUpper && p2.isLower && p1 == '.'
         | _ => false))

/-- Embeds `re.split` of the pattern, scanning left to right: `prev` is the reversed
already-consumed text (lookbehinds read the subject string, not the current
fragment), `cur` the reversed current fragment. A matched whitespace
character is consumed and ends the current fragment. -/
def reSplitAux : List Char → List Char → List Char → List (List Char)
  | _, cur, [] => [cur.reverse]
  | prev, cur, c :: rest =>
    if splitHere prev c then
      cur.reverse :: reSplitAux (c :: prev) [] rest
    else
      reSplitAux (c :: prev) (c :: cur) rest

def reSplit (s : List Char) : List (List Char) := reSplitAux [] [] s

/-- Source `rationale_to_steps`: split on the sentence-boundary regex, then
keep the fragments containing at least `max_spaces` space characters
(`sentence.count(" ") >= max_spaces`, default 2). -/
def rationale_to_steps (rationale : String) (max_spaces : Nat := 2) : List String :=
  let sentences := (reSplit rationale.data).map (fun cs => String.mk cs)
  sentences.filter (fun sentence => max_spaces ≤ sentence.data.count ' ')

/- ---------------------------------------------------------------------
   Verifier strategies.
   --------------------------------------------------------------------- -/

inductive VerificationStrategy where
  | LLM_AS_A_JUDGE
  | RM_MODEL
  | BERT_CLASSIFIER
deriving DecidableEq, Repr

/-- The duck-typed `StepVerifierType` protocol. Annotations travel as their
Python string value (str-enum members compare by value), paired with the
numeric score. -/
structure StepVerifier where
  type : VerificationStrategy
  verify_step : (objective : String) → (step_to_be_verified : String) →
    (reasoning_chain : List String) → (chat_history : List String) → String × ℚ

/-- The classifier verifier (source lines 196-247).  The tokenizer plus
sequence-classification model pipeline is the external collaborator `model`,
taking the `(instruction, response)` pair to the scalar
`logits[0][0].item()`. -/
structure BertClassifierVerifier where
  model : String × String → ℚ
  threshold : ℚ := 0.7
  debug : Bool := true

/-- The instruction string built by `BertClassifierVerifier.verify_step`. -/
def bertInstruction (objective : String) (step_to_be_verified : String)
    (chat_history : List String) : String :=
  "Does the following answer meet the objective behind user" ++ apostrophe ++
    "s messages?\n\n        Objectives: " ++ objective ++ "\n        " ++
    String.intercalate "\n" (chat_history ++ ["Answer: " ++ step_to_be_verified])

def BertClassifierVerifier.verify_step (v : BertClassifierVerifier)
    (objective : String) (step_to_be_verified : String)
    (reasoning_chain : List String) (chat_history : List String := []) :
    StepAnnotation × ℚ :=
  let instruction := bertInstruction objective step_to_be_verified chat_history
  let response := step_to_be_verified
  let score := v.model (instruction, response)
  ((if score ≤ v.threshold then StepAnnotation.DOES_NOT_SEEM_RIGHT
    else StepAnnotation.ESSENTIAL_AND_VALID),
   score)

/-- The protocol view of a classifier verifier: the str-enum annotation is
carried as its value string. -/
def BertClassifierVerifier.toStepVerifier (v : BertClassifierVerifier) : StepVerifier :=
  { type := VerificationStrategy.BERT_CLASSIFIER
  , verify_step := fun o st ch hi =>
      let r := v.verify_step o st ch hi
      ( StepAnnotation.value r.1, r.2) }

/-- The structured response the judge backend must produce
(`StepVerfication` output fields; `step_annotation` is a plain string that
the backend promises to draw from the closed set). -/
structure JudgeJudgement where
  step_annotation : String
  step_rating : Int
deriving DecidableEq

/-- The judge verifier (source lines 164-193). `llm_judge` is the external
typed-chain-of-thought backend; it receives the objective, the step, the
reasoning chain joined with newline-dash separators, and the chat history. -/
structure JudgeLmVerifier where
  llm_judge : (objective : String) → (step_to_be_verified : String) →
    (reasoning_chain : String) → (chat_history : List String) → JudgeJudgement

def JudgeLmVerifier.verify_step (v : JudgeLmVerifier)
    (objective : String) (step_to_be_verified : String)
    (reasoning_chain : List String) (chat_history : List String := []) :
    String × ℚ :=
  let judgement := v.llm_judge objective step_to_be_verified
    (String.intercalate "\n  - " reasoning_chain) chat_history
  ( JudgeJudgement.step_annotation judgement, (judgement.step_rating : ℚ) * 0.2)

/- ---------------------------------------------------------------------
   Orchestrator: `VerifiedQA` (source lines 267-342).
   --------------------------------------------------------------------- -/

structure MessageWithUnderstanding where
  clear_rephrasing_of_message : String
  why_is_user_asking_this : String
  what_is_user_objective : String
  message_decomposition : List String

structure TaskOutput where
  rationale : String
  answer : String

/-- The external generation collaborators wired into `VerifiedQA.__init__`:
message understanding, the rationale-and-answer task, and the conversational
response generator (which in the source receives the raw message,
`str(structured_message)`, and a rationale string). -/
structure Backends where
  message_understanding : (chat : List String) → (new_message : String) → MessageWithUnderstanding
  task : MessageWithUnderstanding → TaskOutput
  conversational : (raw_message_from_user : String) →
    (structured_message : MessageWithUnderstanding) → (rationale : String) → String

structure VerifiedQA where
  step_verifier : StepVerifier
  objective_verifier : StepVerifier

/-- Source `VerifiedQA.__init__`: `objective_verifier` defaults to `None`, in which
case the per-step verifier is reused (`step_verifier if objective_verifier ==
None else objective_verifier`). -/
def VerifiedQA.init (step_verifier : StepVerifier)
    (objective_verifier : Option StepVerifier := none) : VerifiedQA :=
  { step_verifier := step_verifier
  , objective_verifier :=
      match objective_verifier with
      | none => step_verifier
      | some v => v }

def assertMsg : String :=
  "There should atleast be 2 steps in our rationale, or its probably not a good rationale."

def stepSuggestMsg : String :=
  "Each step in the thought process must be necessary for reaching an answer and be logically and factually valid."

def finalSuggestMsg : String :=
  "The answer must meet the user" ++ apostrophe ++ "s objectives."

/-- The per-step `Suggest` predicate (source line 312):
`annotation == StepAnnotation.ESSENTIAL_AND_VALID.value`, a string-to-string
comparison. -/
def stepSuggestResult (ann : String) : Bool :=
  PyVal.pyEq (PyVal.str ann) (PyVal.str ( StepAnnotation.value StepAnnotation.ESSENTIAL_AND_VALID))

/-- The final `Suggest` predicate (source line 338):
`objective_annotation == StepAnnotation.ESSENTIAL_AND_VALID` — but
`objective_annotation` is the whole `(annotation, score)` tuple returned by
`verify_step` (source line 330), so this is a tuple-versus-str-enum
comparison. -/
def finalSuggestResult (objective_ann : String × ℚ) : Bool :=
  PyVal.pyEq (PyVal.tup (PyVal.str objective_ann.1) (PyVal.num objective_ann.2))
    (PyVal.str ( StepAnnotation.value StepAnnotation.ESSENTIAL_AND_VALID))

/-- The body of `process_step` (source lines 304-316): verify one step against
the objective, the whole chain and the chat history extended with the new
message; return the `(step, score)` pair together with the step-level
`Suggest` outcome. -/
def process_step (qa : VerifiedQA) (structured : MessageWithUnderstanding)
    (steps : List String) (chat_history : List String) (message : String)
    (step : String) : (String × ℚ) × Bool :=
  let r := qa.step_verifier.verify_step structured.what_is_user_objective step
    steps (chat_history ++ [message])
  ((step, r.2), stepSuggestResult r.1)

inductive ForwardResult where
  | assertionError (msg : String)
  | done (chosen_steps : List (String × ℚ)) (stepSuggests : List Bool)
      (response : String) (finalSuggest : Bool)
deriving DecidableEq

/-- One round of `VerifiedQA.forward`, with the data flow that the claims
inspect recorded explicitly: the segmented steps, the steps actually
dispatched to the verification fan-out, and the `rationale=` argument handed
to the conversational response generator. -/
structure ForwardTrace where
  steps : List String
  verifyCalls : List String
  convRationaleArg : Option String
  result : ForwardResult
deriving DecidableEq

/-- Source `VerifiedQA.forward` (lines 283-342) as one attempt: understand the
message, generate `(rationale, answer)`, segment the rationale, hard-assert
`len(steps) > 2` (raising before the fan-out otherwise), verify every step,
generate the conversational response — the source passes `answer.answer` as
the `rationale=` argument — and verify that response at the objective level
with `chat_history` (not extended by the new message). -/
def VerifiedQA.forward (qa : VerifiedQA) (b : Backends) (message : String)
    (chat_history : List String := []) : ForwardTrace :=
  let structured := b.message_understanding chat_history message
  let answer := b.task structured
  let steps := rationale_to_steps answer.rationale
  if steps.length > 2 then
    let processed := steps.map (process_step qa structured steps chat_history message)
    let chosen_steps := processed.map (fun pr => pr.1)
    let response := b.conversational message structured answer.answer
    let objective_ann := qa.objective_verifier.verify_step
      structured.what_is_user_objective response steps chat_history
    { steps := steps
    , verifyCalls := steps
    , convRationaleArg := some answer.answer
    , result := ForwardResult.done chosen_steps (processed.map (fun pr => pr.2))
        response (finalSuggestResult objective_ann) }
  else
    { steps := steps
    , verifyCalls := []
    , convRationaleArg := none
    , result := ForwardResult.assertionError assertMsg }

/- ---------------------------------------------------------------------
   The parallel fan-out (`ThreadPoolExecutor.map`, source lines 318-320).
   Modelled from the spec: the worker-pool semantics live in the standard
   library, outside src/; per the spec each dispatched verification is an
   index-tagged future, completion order is an arbitrary permutation of the
   dispatched futures, and results are re-assembled to input order.
   --------------------------------------------------------------------- -/

/-- Dispatch: future number `i` carries the pair `(i, f step_i)`. -/
def submitAllFrom (f : String → String × ℚ) : Nat → List String → List (Nat × (String × ℚ))
  | _, [] => []
  | i, st :: rest => (i, f st) :: submitAllFrom f (i + 1) rest

def submitAll (f : String → String × ℚ) (steps : List String) : List (Nat × (String × ℚ)) :=
  submitAllFrom f 0 steps

/-- Re-assembly: the `i`-th yielded result is the completed future tagged `i`,
whatever order completions arrived in. -/
def collectResults (n : Nat) (completed : List (Nat × (String × ℚ))) :
    List (Option (String × ℚ)) :=
  (List.range n).map (fun i => Option.map Prod.snd (completed.find? (fun p => p.1 == i)))

/- ---------------------------------------------------------------------
   The bounded backtrack loop around forward attempts.
   Modelled from the spec: `dspy.Assert` / `dspy.Suggest` /
   `backtrack_handler` live outside src/; per spec sections 4.4, 5 and 7 a
   hard failure is immediately terminal with no backtrack, a soft failure
   re-runs generation while attempts remain (bound `max_backtracks`,
   source line 374 passes 2), and exhaustion turns the soft failure into a
   terminal violation carrying the original diagnostic message.
   --------------------------------------------------------------------- -/

inductive AttemptOutcome where
  | ok (chosen_steps : List (String × ℚ)) (resp : String)
  | hard (msg : String)
  | soft (msg : String)
deriving DecidableEq

inductive ChatOutcome where
  | response (chosen_steps : List (String × ℚ)) (resp : String)
  | hardFailure (msg : String)
  | softConstraintViolation (msg : String)
deriving DecidableEq

/-- Classify one forward attempt: a raised hard assertion is a hard failure;
otherwise the first failing soft constraint (a step-level one, else the
objective-level one) makes the attempt a soft failure. -/
def attemptOutcome (t : ForwardTrace) : AttemptOutcome :=
  match t.result with
  | ForwardResult.assertionError m => AttemptOutcome.hard m
  | ForwardResult.done cs ss resp fs =>
    if ss.all (fun x => x) then
      (if fs then AttemptOutcome.ok cs resp else AttemptOutcome.soft finalSuggestMsg)
    else AttemptOutcome.soft stepSuggestMsg

/-- The retry loop with `fuel` attempts remaining and `used` attempts made.
Entered with fuel `max_backtracks + 1`, so the zero-fuel arm is unreachable
from `backtrackLoop`. -/
def backtrackGo (attempt : Nat → AttemptOutcome) : Nat → Nat → Nat × ChatOutcome
  | 0, used => (used, ChatOutcome.softConstraintViolation "")
  | fuel + 1, used =>
    match attempt used with
    | AttemptOutcome.ok cs r => (used + 1, ChatOutcome.response cs r)
    | AttemptOutcome.hard m => (used + 1, ChatOutcome.hardFailure m)
    | AttemptOutcome.soft m =>
      if fuel = 0 then (used + 1, ChatOutcome.softConstraintViolation m)
      else backtrackGo attempt fuel (used + 1)

/-- Run up to `maxBacktracks` regenerations after the first attempt, returning
the number of attempts performed and the terminal outcome. -/
def backtrackLoop (maxBacktracks : Nat) (attempt : Nat → AttemptOutcome) :
    Nat × ChatOutcome :=
  backtrackGo attempt (maxBacktracks + 1) 0

/-- The bound the `chat` command wires in:
`functools.partial(backtrack_handler, max_backtracks=2)` (source line 374). -/
def chatMaxBacktracks : Nat := 2

/- ---------------------------------------------------------------------
   Vocabulary of the spec sentences under test (claim side only).
   --------------------------------------------------------------------- -/

def trimSpaces (l : List Char) : List Char :=
  ((l.dropWhile (fun c => c == ' ')).reverse.dropWhile (fun c => c == ' ')).reverse

/-- Modelled from the spec: the number of interior space characters of a step,
i.e. spaces that are neither leading nor trailing. -/
def specInteriorSpaces (s : String) : Nat := (trimSpaces s.data).count ' '

def wordCountAux : Bool → List Char → Nat
  | _, [] => 0
  | inWord, c :: rest =>
    if c == ' ' then wordCountAux false rest
    else (if inWord then 0 else 1) + wordCountAux true rest

/-- Modelled from the spec: the number of words of a step, reading words as
the maximal space-free fragments. -/
def wordCount (s : String) : Nat := wordCountAux false s.data

/- ---------------------------------------------------------------------
   Concrete instances used by the witnesses.
   --------------------------------------------------------------------- -/

def demoUnderstanding : MessageWithUnderstanding :=
  { clear_rephrasing_of_message := ""
  , why_is_user_asking_this := ""
  , what_is_user_objective := "obj"
  , message_decomposition := [] }

def demoBackends (rat ans : String) : Backends :=
  { message_understanding := fun _ _ => demoUnderstanding
  , task := fun _ => { rationale := rat, answer := ans }
  , conversational := fun _ _ r => r }

/-- A verifier strategy that always returns the soft-failing annotation
`does_not_seem_right` (as a low-scoring classifier would). -/
def failVerifier : StepVerifier :=
  { type := VerificationStrategy.BERT_CLASSIFIER
  , verify_step := fun _ _ _ _ => ("does_not_seem_right", 0) }

/-- A protocol verifier that always passes the soft constraints at step level. -/
def passVerifier : StepVerifier :=
  { type := VerificationStrategy.BERT_CLASSIFIER
  , verify_step := fun _ _ _ _ => ("essential_valid", 1) }

def c3Rationale : String :=
  "First, gather materials. Next, assemble the frame. Then attach the engine."

def c3Backends : Backends := demoBackends c3Rationale "42"

def c5Backends : Backends := demoBackends "too short" "ans"

def c8Backends : Backends := demoBackends "a b c. d e f. g h i." "ans"

def c4Steps : List String := ["a b c.", "d e f."]

/- ---------------------------------------------------------------------
   Theorems.  First the segmenter lemmas.
   --------------------------------------------------------------------- -/

theorem pySpace_facts (w : Char) (hw : isPySpace w = true) :
    (w == '.') = false ∧ (w == '?') = false ∧ isWordChar w = false ∧
      w.isUpper = false ∧ w.isLower = false := by
  simp only [isPySpace, Bool.or_eq_true, beq_iff_eq] at hw
  rcases hw with ((((rfl | rfl) | rfl) | rfl) | rfl) | rfl <;> decide

theorem splitHere_space (prev : List Char) (c : Char) (h : splitHere prev c = true) :
    isPySpace c = true := by
  unfold splitHere at h
  simp only [Bool.and_eq_true] at h
  exact h.1

theorem splitHere_append (cur p0 : List Char) (w c : Char) (hw : isPySpace w = true) :
    splitHere (cur ++ w :: p0) c = splitHere cur c := by
  obtain ⟨h1, h2, h3, h4, h5⟩ := pySpace_facts w hw
  cases cur with
  | nil => simp [splitHere, h1, h2]
  | cons a cur' =>
    cases cur' with
    | nil =>
      cases p0 with
      | nil => simp [splitHere, h5]
      | cons x p' => cases p' <;> simp [splitHere, h3, h5]
    | cons b cur'' =>
      cases cur'' with
      | nil =>
        cases p0 with
        | nil => simp [splitHere, h1, h4]
        | cons x p' => simp [splitHere, h1, h4]
      | cons d cur''' =>
        cases cur''' with
        | nil => simp [splitHere, h3]
        | cons e rest => simp [splitHere]

theorem reSplitAux_drop (rest : List Char) : ∀ (cur p0 : List Char) (w : Char),
    isPySpace w = true →
    reSplitAux (cur ++ w :: p0) cur rest = reSplitAux cur cur rest := by
  induction rest with
  | nil => intro cur p0 w hw; rfl
  | cons c rest ih =>
    intro cur p0 w hw
    have hs := splitHere_append cur p0 w c hw
    by_cases h : splitHere cur c = true
    · have hc : isPySpace c = true := splitHere_space cur c h
      have e1 : reSplitAux (c :: (cur ++ w :: p0)) [] rest = reSplitAux [] [] rest := by
        have := ih [] (cur ++ w :: p0) c hc
        simpa using this
      have e2 : reSplitAux (c :: cur) [] rest = reSplitAux [] [] rest := by
        have := ih [] cur c hc
        simpa using this
      simp [reSplitAux, hs, h, e1, e2]
    · have h' : splitHere cur c = false := by
        cases hcc : splitHere cur c with
        | false => rfl
        | true => exact absurd hcc h
      have hs' : splitHere (cur ++ w :: p0) c = false := by rw [hs, h']
      have := ih (c :: cur) p0 w hw
      simp only [reSplitAux, hs', h', if_false, Bool.false_eq_true]
      simpa [List.cons_append] using this

theorem reSplitAux_noSplit (rem : List Char) : ∀ (tak : List Char),
    (∀ pre c post, rem = pre ++ c :: post → splitHere (pre.reverse ++ tak) c = false) →
    reSplitAux tak tak rem = [tak.reverse ++ rem] := by
  induction rem with
  | nil => intro tak h; simp [reSplitAux]
  | cons c rem ih =>
    intro tak h
    have h0 : splitHere tak c = false := by
      have := h [] c rem rfl
      simpa using this
    have hrec := ih (c :: tak) (by
      intro pre c' post hp
      have := h (c :: pre) c' post (by rw [hp]; rfl)
      simpa [List.reverse_cons, List.append_assoc] using this)
    simp only [reSplitAux, h0, if_false, Bool.false_eq_true]
    rw [hrec]
    simp

theorem reSplit_of_splitFree (cur : List Char)
    (hc : ∀ a c b, cur = a ++ c :: b → splitHere b c = false) :
    reSplitAux [] [] cur.reverse = [cur.reverse] := by
  have := reSplitAux_noSplit cur.reverse [] (by
    intro pre c post hsplit
    have hcur : cur = post.reverse ++ c :: pre.reverse := by
      have h2 : cur = (pre ++ c :: post).reverse := by
        rw [← hsplit, List.reverse_reverse]
      simpa [List.reverse_append, List.reverse_cons, List.append_assoc] using h2
    simpa using hc _ c _ hcur)
  simpa using this

theorem mem_reSplitAux_self (rest : List Char) : ∀ (cur p0 : List Char),
    (p0 = [] ∨ ∃ w p1, p0 = w :: p1 ∧ isPySpace w = true) →
    (∀ a c b, cur = a ++ c :: b → splitHere b c = false) →
    ∀ F, F ∈ reSplitAux (cur ++ p0) cur rest → reSplitAux [] [] F = [F] := by
  induction rest with
  | nil =>
    intro cur p0 hp hc F hF
    simp only [reSplitAux, List.mem_singleton] at hF
    subst hF
    exact reSplit_of_splitFree cur hc
  | cons c rest ih =>
    intro cur p0 hp hc F hF
    by_cases hsp : splitHere (cur ++ p0) c = true
    · simp only [reSplitAux, hsp, if_true, List.mem_cons] at hF
      rcases hF with rfl | hF
      · exact reSplit_of_splitFree cur hc
      · have hcsp : isPySpace c = true := splitHere_space _ _ hsp
        exact ih [] (c :: (cur ++ p0)) (Or.inr ⟨c, cur ++ p0, rfl, hcsp⟩)
          (by intro a c' b hab; exact absurd hab (by simp)) F (by simpa using hF)
    · have hsp' : splitHere (cur ++ p0) c = false := by
        cases hcc : splitHere (cur ++ p0) c with
        | false => rfl
        | true => exact absurd hcc hsp
      simp only [reSplitAux, hsp', if_false, Bool.false_eq_true] at hF
      have hcurstep : splitHere cur c = false := by
        rcases hp with rfl | ⟨w, p1, rfl, hw⟩
        · simpa using hsp'
        · rw [← splitHere_append cur p1 w c hw]; exact hsp'
      refine ih (c :: cur) p0 hp ?_ F (by simpa [List.cons_append] using hF)
      intro a c' b hab
      cases a with
      | nil =>
        simp only [List.nil_append] at hab
        injection hab with hab1 hab2
        subst hab1; subst hab2
        exact hcurstep
      | cons a' as =>
        simp only [List.cons_append] at hab
        injection hab with hab1 hab2
        exact hc as c' b hab2

theorem mem_reSplit_self (r F : List Char) (h : F ∈ reSplit r) : reSplit F = [F] := by
  have := mem_reSplitAux_self r [] [] (Or.inl rfl)
    (by intro a c b hab; exact absurd hab (by simp)) F (by simpa [reSplit] using h)
  simpa [reSplit] using this

/- Lemmas about the fan-out model. -/

theorem find?_perm_unique {α : Type} (p : α → Bool) (l1 l2 : List α)
    (hp : List.Perm l1 l2) (x : α) (hx : x ∈ l2) (hpx : p x = true)
    (huniq : ∀ y, y ∈ l2 → p y = true → y = x) :
    l1.find? p = some x := by
  have hx1 : x ∈ l1 := hp.mem_iff.mpr hx
  cases hfind : l1.find? p with
  | none =>
    rw [List.find?_eq_none] at hfind
    exact absurd hpx (hfind x hx1)
  | some y =>
    have h1 : p y = true := List.find?_some hfind
    have h2 : y ∈ l1 := List.mem_of_find?_eq_some hfind
    rw [huniq y (hp.mem_iff.mp h2) h1]

theorem submitAllFrom_mem (f : String → String × ℚ) :
    ∀ (l : List String) (i k : Nat) (hk : k < l.length),
      (i + k, f (l.get ⟨k, hk⟩)) ∈ submitAllFrom f i l := by
  intro l
  induction l with
  | nil => intro i k hk; exact absurd hk (by simp)
  | cons st rest ih =>
    intro i k hk
    cases k with
    | zero => simp [submitAllFrom]
    | succ k =>
      have := ih (i + 1) k (by simpa using Nat.lt_of_succ_lt_succ hk)
      simp only [submitAllFrom, List.mem_cons]
      right
      have harith : i + 1 + k = i + (k + 1) := by omega
      rw [← harith]
      simpa using this

theorem submitAllFrom_key_mem (f : String → String × ℚ) :
    ∀ (l : List String) (i : Nat) (x : Nat × (String × ℚ)),
      x ∈ submitAllFrom f i l →
      ∃ k, ∃ hk : k < l.length, x = (i + k, f (l.get ⟨k, hk⟩)) := by
  intro l
  induction l with
  | nil => intro i x hx; exact absurd hx (by simp [submitAllFrom])
  | cons st rest ih =>
    intro i x hx
    simp only [submitAllFrom, List.mem_cons] at hx
    rcases hx with rfl | hx
    · exact ⟨0, by simp, by simp⟩
    · obtain ⟨k, hk, rfl⟩ := ih (i + 1) x hx
      refine ⟨k + 1, by simpa using Nat.succ_lt_succ hk, ?_⟩
      have harith : i + 1 + k = i + (k + 1) := by omega
      simp [harith]

theorem collect_perm (f : String → String × ℚ) (steps : List String)
    (completed : List (Nat × (String × ℚ)))
    (hperm : List.Perm completed (submitAll f steps)) :
    collectResults steps.length completed = steps.map (fun st => some (f st)) := by
  apply List.ext_getElem
  · simp [collectResults]
  intro i h1 h2
  have hi : i < steps.length := by simpa [collectResults] using h1
  have hfind : completed.find? (fun p => p.1 == i) = some (i, f (steps.get ⟨i, hi⟩)) := by
    apply find?_perm_unique _ _ _ hperm
    · have := submitAllFrom_mem f steps 0 i hi
      simpa [submitAll] using this
    · simp
    · intro y hy hpy
      obtain ⟨k, hk, rfl⟩ := submitAllFrom_key_mem f steps 0 y hy
      simp only [Nat.zero_add, beq_iff_eq] at hpy
      subst hpy
      simp
  simp only [collectResults, List.getElem_map, List.getElem_range]
  rw [hfind]
  simp [List.get_eq_getElem]

/- Lemma about the backtrack loop under an always-soft-failing attempt. -/

theorem backtrackGo_soft (attempt : Nat → AttemptOutcome) (m : String)
    (h : ∀ n, attempt n = AttemptOutcome.soft m) :
    ∀ fuel used, 0 < fuel →
      backtrackGo attempt fuel used = (used + fuel, ChatOutcome.softConstraintViolation m) := by
  intro fuel
  induction fuel with
  | zero => intro used hu; exact absurd hu (by omega)
  | succ fuel ih =>
    intro used _
    cases fuel with
    | zero => simp [backtrackGo, h used]
    | succ fuel' =>
      have e1 : backtrackGo attempt (fuel' + 1 + 1) used
          = if fuel' + 1 = 0 then (used + 1, ChatOutcome.softConstraintViolation m)
            else backtrackGo attempt (fuel' + 1) (used + 1) := by
        conv_lhs => rw [backtrackGo]
        rw [h used]
      rw [e1, if_neg (Nat.succ_ne_zero fuel'), ih (used + 1) (Nat.succ_pos fuel')]
      have e2 : used + 1 + (fuel' + 1) = used + (fuel' + 1 + 1) := by omega
      rw [e2]

/- ---------------------------------------------------------------------
   Claim theorems.
   --------------------------------------------------------------------- -/

/-- Claim C1: for every input, the classifier verifier returns
`DOES_NOT_SEEM_RIGHT` exactly when the model score is at most the threshold
(so in particular at a score equal to the default threshold 0.7),
`ESSENTIAL_AND_VALID` exactly when the score is strictly above it, never any
of the other four members, and the default threshold is 0.7. -/
theorem c1_bert_thresholding (m : String × String → ℚ) (t : ℚ) (d : Bool)
    (o st : String) (ch hi : List String) :
    (((BertClassifierVerifier.mk m t d).verify_step o st ch hi).1
        = StepAnnotation.DOES_NOT_SEEM_RIGHT ↔ m (bertInstruction o st hi, st) ≤ t)
    ∧ (((BertClassifierVerifier.mk m t d).verify_step o st ch hi).1
        = StepAnnotation.ESSENTIAL_AND_VALID ↔ t < m (bertInstruction o st hi, st))
    ∧ (((BertClassifierVerifier.mk m t d).verify_step o st ch hi).1
          = StepAnnotation.DOES_NOT_SEEM_RIGHT
        ∨ ((BertClassifierVerifier.mk m t d).verify_step o st ch hi).1
          = StepAnnotation.ESSENTIAL_AND_VALID)
    ∧ ((BertClassifierVerifier.mk m t d).verify_step o st ch hi).2
        = m (bertInstruction o st hi, st)
    ∧ ({ model := m } : BertClassifierVerifier).threshold = 0.7 := by
  by_cases h : m (bertInstruction o st hi, st) ≤ t
  · refine ⟨?_, ?_, ?_, ?_, rfl⟩ <;>
      simp [BertClassifierVerifier.verify_step, h, not_lt.mpr h]
  · refine ⟨?_, ?_, ?_, ?_, rfl⟩ <;>
      simp [BertClassifierVerifier.verify_step, h, lt_of_not_le h]

/-- Claim C2 (code bug): the final objective-level soft constraint compares
the whole `(annotation, score)` tuple returned by `verify_step` against the
`ESSENTIAL_AND_VALID` enum member, a cross-type comparison that is `False`
in Python for every value — in particular it fails even when the annotation
is `essential_valid`, contradicting the claimed pass condition. -/
theorem c2_final_suggest_always_false (a : String) (q : ℚ) :
    finalSuggestResult (a, q) = false ∧
      finalSuggestResult ("essential_valid", 0.9) = false := by
  exact ⟨rfl, rfl⟩

/-- Claim C7: the judge verifier returns as score the backend rating times
0.2; with a backend replying rating 0, 3 or 5 the score is 0, 0.6 or 1. -/
theorem c7_judge_score_scaling (v : JudgeLmVerifier) (o st : String)
    (ch hi : List String) :
    (v.verify_step o st ch hi).2
        = ((JudgeJudgement.step_rating
            (v.llm_judge o st (String.intercalate "\n  - " ch) hi) : Int) : ℚ) * 0.2
    ∧ ((JudgeLmVerifier.mk (fun _ _ _ _ => ⟨"essential_valid", 0⟩)).verify_step o st ch hi).2 = 0
    ∧ ((JudgeLmVerifier.mk (fun _ _ _ _ => ⟨"essential_valid", 3⟩)).verify_step o st ch hi).2 = 0.6
    ∧ ((JudgeLmVerifier.mk (fun _ _ _ _ => ⟨"essential_valid", 5⟩)).verify_step o st ch hi).2 = 1 := by
  refine ⟨rfl, ?_, ?_, ?_⟩ <;> simp [JudgeLmVerifier.verify_step] <;> norm_num

/-- Claim C10: constructing the orchestrator without an objective verifier
reuses the step verifier both as the recorded `objective_verifier` and in the
whole behaviour of `forward`, which then coincides with the orchestrator
whose objective verifier is the step verifier itself. -/
theorem c10_objective_verifier_defaults (sv : StepVerifier) (b : Backends)
    (message : String) (hist : List String) :
    (VerifiedQA.init sv).objective_verifier = sv
    ∧ (VerifiedQA.init sv none).forward b message hist
        = (VerifiedQA.mk sv sv).forward b message hist := by
  exact ⟨rfl, rfl⟩

/-- Claim C9: the segmenter is idempotent on its own output — any step it
returns re-segments to exactly that step as the sole qualifying one (it can
never fall below the space threshold, having already passed the filter). -/
theorem c9_segmenter_idempotent (r s : String) (h : s ∈ rationale_to_steps r) :
    rationale_to_steps s = [s] := by
  unfold rationale_to_steps at h ⊢
  simp only [List.mem_filter, List.mem_map] at h
  obtain ⟨⟨cs, hcs, rfl⟩, hpred⟩ := h
  have hself : reSplit (String.mk cs).data = [cs] := mem_reSplit_self r.data cs hcs
  rw [hself]
  simp only [List.map_cons, List.map_nil, List.filter_cons]
  rw [if_pos (by simpa using hpred)]
  rfl

theorem c9_witness :
    "a b c." ∈ rationale_to_steps "a b c. d e f."
    ∧ rationale_to_steps "a b c." = ["a b c."] := by
  refine ⟨by decide, c9_segmenter_idempotent "a b c. d e f." "a b c." (by decide)⟩

/-- Claim C6, counterexample: on the rationale `"ab.  a b"` (two spaces after
the boundary) the segmenter keeps the fragment `" a b"`, which has only one
interior space and two words, refuting "every returned step contains at
least 2 interior space characters (hence at least 3 words)". -/
theorem c6_counterexample :
    rationale_to_steps "ab.  a b" = [" a b"]
    ∧ " a b" ∈ rationale_to_steps "ab.  a b"
    ∧ specInteriorSpaces " a b" = 1
    ∧ ¬ (2 ≤ specInteriorSpaces " a b")
    ∧ wordCount " a b" = 2 := by
  refine ⟨rfl, by decide, rfl, by decide, by decide⟩

/-- Claim C6 (amended): every step the segmenter returns contains at least 2
space characters in total (leading and trailing spaces included), hence is
non-empty, and every split fragment with fewer than 2 space characters is
discarded from the output. -/
theorem c6_amended_space_filter (r : String) :
    (∀ s, s ∈ rationale_to_steps r → 2 ≤ s.data.count ' ' ∧ s ≠ "")
    ∧ (∀ f, f ∈ (reSplit r.data).map String.mk → f.data.count ' ' < 2 →
        f ∉ rationale_to_steps r) := by
  have hkeep : ∀ s, s ∈ rationale_to_steps r → 2 ≤ s.data.count ' ' := by
    intro s hs
    unfold rationale_to_steps at hs
    simp only [List.mem_filter] at hs
    simpa using hs.2
  constructor
  · intro s hs
    refine ⟨hkeep s hs, ?_⟩
    intro he
    have := hkeep s hs
    rw [he] at this
    simp at this
  · intro f _ hlt hmem
    have := hkeep f hmem
    omega

theorem c6_amended_witness :
    (2 ≤ (" a b" : String).data.count ' ' ∧ (" a b" : String) ≠ "")
    ∧ ("ab." : String) ∉ rationale_to_steps "ab.  a b" := by
  refine ⟨(c6_amended_space_filter "ab.  a b").1 " a b" (by decide),
    (c6_amended_space_filter "ab.  a b").2 "ab." (by decide) (by decide)⟩

/-- Claim C3 (code bug): the conversational response generator receives
`answer.answer` as its `rationale=` argument, not the `answer.rationale`
that was segmented and verified — exhibited with a task backend whose
rationale and answer differ. -/
theorem c3_response_gets_answer_not_rationale :
    ((VerifiedQA.init passVerifier).forward c3Backends "m" []).steps
        = rationale_to_steps c3Rationale
    ∧ ((VerifiedQA.init passVerifier).forward c3Backends "m" []).convRationaleArg
        = some "42"
    ∧ ((VerifiedQA.init passVerifier).forward c3Backends "m" []).convRationaleArg
        ≠ some c3Rationale := by
  refine ⟨rfl, rfl, by decide⟩

/-- Claim C5: with fewer than 3 qualifying steps the hard step-count assert
fails, no step is dispatched to the verification fan-out, the round ends in
the assertion error, and the (spec-modelled) retry loop performs exactly one
attempt — no backtrack — before the terminal hard failure. -/
theorem c5_hard_constraint_fail_fast (qa : VerifiedQA) (b : Backends)
    (message : String) (hist : List String)
    (h : (rationale_to_steps ((b.task (b.message_understanding hist message)).rationale)).length < 3) :
    (qa.forward b message hist).verifyCalls = []
    ∧ (qa.forward b message hist).result = ForwardResult.assertionError assertMsg
    ∧ ∀ maxB : Nat,
        backtrackLoop maxB (fun _ => attemptOutcome (qa.forward b message hist))
          = (1, ChatOutcome.hardFailure assertMsg) := by
  have hc : ¬ ((rationale_to_steps ((b.task (b.message_understanding hist message)).rationale)).length > 2) := by
    omega
  have hfw : qa.forward b message hist
      = { steps := rationale_to_steps ((b.task (b.message_understanding hist message)).rationale)
        , verifyCalls := []
        , convRationaleArg := none
        , result := ForwardResult.assertionError assertMsg } := by
    unfold VerifiedQA.forward
    rw [if_neg hc]
  refine ⟨by rw [hfw], by rw [hfw], ?_⟩
  intro maxB
  rw [hfw]
  simp [backtrackLoop, backtrackGo, attemptOutcome]

theorem c5_witness :
    ((VerifiedQA.init passVerifier).forward c5Backends "m" []).verifyCalls = []
    ∧ ((VerifiedQA.init passVerifier).forward c5Backends "m" []).result
        = ForwardResult.assertionError assertMsg
    ∧ backtrackLoop 2
        (fun _ => attemptOutcome ((VerifiedQA.init passVerifier).forward c5Backends "m" []))
        = (1, ChatOutcome.hardFailure assertMsg) := by
  have h : (rationale_to_steps ((c5Backends.task (c5Backends.message_understanding [] "m")).rationale)).length < 3 := by
    decide
  obtain ⟨h1, h2, h3⟩ := c5_hard_constraint_fail_fast (VerifiedQA.init passVerifier) c5Backends "m" [] h
  exact ⟨h1, h2, h3 2⟩

/-- Claim C8: under a verifier strategy whose every attempt soft-fails, the
(spec-modelled) backtrack loop with the bound the `chat` command wires in
performs exactly `max_backtracks + 1 = 3` attempts and reports the terminal
soft-constraint violation; the same holds for every bound, so the loop
terminates. -/
theorem c8_backtrack_bound (attempt : Nat → AttemptOutcome) (m : String)
    (h : ∀ n, attempt n = AttemptOutcome.soft m) :
    backtrackLoop chatMaxBacktracks attempt = (3, ChatOutcome.softConstraintViolation m)
    ∧ ∀ maxB : Nat, backtrackLoop maxB attempt
        = (maxB + 1, ChatOutcome.softConstraintViolation m) := by
  have hall : ∀ maxB : Nat, backtrackLoop maxB attempt
      = (maxB + 1, ChatOutcome.softConstraintViolation m) := by
    intro maxB
    unfold backtrackLoop
    rw [backtrackGo_soft attempt m h (maxB + 1) 0 (Nat.succ_pos maxB)]
    rw [Nat.zero_add]
  refine ⟨?_, hall⟩
  have h3 := hall chatMaxBacktracks
  simpa [chatMaxBacktracks] using h3

theorem c8_witness :
    backtrackLoop chatMaxBacktracks
        (fun _ => attemptOutcome ((VerifiedQA.init failVerifier).forward c8Backends "m" []))
      = (3, ChatOutcome.softConstraintViolation stepSuggestMsg) :=
  (c8_backtrack_bound
    (fun _ => attemptOutcome ((VerifiedQA.init failVerifier).forward c8Backends "m" []))
    stepSuggestMsg (fun _ => rfl)).1

/-- Claim C4: for every step list and every completion order of the
dispatched per-step verifications (any permutation of the index-tagged
futures), the re-assembled output has exactly one result per input step, the
`i`-th being the `(step, score)` pair of the `i`-th input step. -/
theorem c4_parallel_order (qa : VerifiedQA) (structured : MessageWithUnderstanding)
    (chat_history : List String) (message : String) (steps : List String)
    (completed : List (Nat × (String × ℚ)))
    (hperm : List.Perm completed
      (submitAll (fun st => (process_step qa structured steps chat_history message st).1) steps)) :
    collectResults steps.length completed
      = steps.map (fun st => some ((process_step qa structured steps chat_history message st).1))
    ∧ (collectResults steps.length completed).length = steps.length := by
  have h := collect_perm _ steps completed hperm
  exact ⟨h, by rw [h]; simp⟩

theorem c4_witness :
    collectResults c4Steps.length
        ((submitAll (fun st => (process_step (VerifiedQA.init failVerifier) demoUnderstanding c4Steps [] "m" st).1) c4Steps).reverse)
      = c4Steps.map (fun st => some ((process_step (VerifiedQA.init failVerifier) demoUnderstanding c4Steps [] "m" st).1)) :=
  (c4_parallel_order (VerifiedQA.init failVerifier) demoUnderstanding [] "m" c4Steps _
    (List.reverse_perm _)).1
